import Mathlib

/-!
Verification development for the `project_updater` repository
(`updater.py`, class `ProjectUpdater`, and `main.py`).

The Python code is shallowly embedded as follows.

* A filesystem path relative to the project root is a list of path
  segments (`Path`); file contents are byte strings modelled as `String`
  (byte-identical means equal).  The live project tree is a finite-support
  map `FS := Path → Option Content`; `none` means the file is absent.
* The `.backup` directory is either absent (`none`) or holds a file tree,
  modelled as the list of (path, content) pairs that were copied into it,
  in copy order (`Option BackupTree`); the `.update` staging directory is
  tracked as a boolean (exists / deleted).
* Critical-file entries (the `critical_files` list of `version.json`) are
  modelled as normalized relative paths (segment lists); the merge loop of
  `apply_update` compares rendered path strings, mirroring
  `str(relative_path) in critical_files`.
* Exceptions are modelled explicitly: `compare_versions` returns
  `Option Int` (`none` = Python `int()` raised), `check_for_updates`
  returns a `CheckOutcome` that distinguishes an exception escaping to the
  caller from a returned pair, and a fault-injection argument
  `failAfter : Option Nat` makes the (k+1)-st `shutil.copy2` of the merge
  loop of `apply_update` raise, so that mid-merge filesystem errors are
  expressible.  `failAfter = none` is the fault-free run, i.e. the code
  as written.
-/

namespace ProjectUpdater

/-- A project-relative filesystem path, as its list of segments
(the `parts` of a Python `PurePath`). -/
abbrev Path := List String

/-- File contents; byte-identical contents are equal values. -/
abbrev Content := String

/-- A file tree: each path is either absent or holds contents. -/
abbrev FS := Path → Option Content

/-- The file tree copied into the `.backup` directory, in copy order. -/
abbrev BackupTree := List (Path × Content)

/-- The file list of one extracted top-level directory: the regular files
found by `source_dir.rglob('*')`, with their paths relative to
`source_dir`, in traversal order. -/
abbrev DirTree := List (Path × Content)

/-- `shutil.copy2 src dest`: overwrite the file at path `p` with
contents `c`. -/
def fsWrite (fs : FS) (p : Path) (c : Content) : FS :=
  fun q => if q = p then some c else fs q

def slashChar : Char := '/'

def dotChar : Char := '.'

def vChar : Char := 'v'

def minusChar : Char := '-'

/-- Join path segments with the separator, as `str(PurePosixPath)` does. -/
def joinSlash : Path → List Char
  | [] => []
  | [s] => s.data
  | s :: rest => s.data ++ slashChar :: joinSlash rest

/-- `str(relative_path)`: the rendered path string. -/
def pathStr (p : Path) : String :=
  String.mk (joinSlash p)

/-- `part.startswith('.')` on one path segment. -/
def startsWithDot (s : String) : Bool :=
  match s.data with
  | [] => false
  | c :: _ => c == dotChar

/-! ### compare_versions -/

/-- `version.split('.')` on the character list: split on every dot,
keeping empty segments (so the empty string yields one empty segment). -/
def splitOnDotAux : List Char → List Char → List (List Char)
  | [], acc => [acc.reverse]
  | c :: cs, acc =>
    if c == dotChar then acc.reverse :: splitOnDotAux cs []
    else splitOnDotAux cs (c :: acc)

def splitOnDot (s : String) : List (List Char) :=
  splitOnDotAux s.data []

def digitsToNat (ds : List Char) : Nat :=
  ds.foldl (fun n c => 10 * n + (c.toNat - 48)) 0

def isDigits (ds : List Char) : Bool :=
  !ds.isEmpty && ds.all Char.isDigit

/-- Python `int(x)` on a version segment: an optional minus sign followed
by a non-empty digit string; anything else raises (`none`). -/
def parseInt (cs : List Char) : Option Int :=
  match cs with
  | [] => none
  | c :: rest =>
    if c == minusChar then
      if isDigits rest then some (-(Int.ofNat (digitsToNat rest))) else none
    else if isDigits (c :: rest) then some (Int.ofNat (digitsToNat (c :: rest))) else none

/-- `[int(x) for x in version.split('.')]`; `none` when `int` raises. -/
def parseVersion (s : String) : Option (List Int) :=
  (splitOnDot s).mapM parseInt

/-- One position of the comparison loop when the first list is exhausted:
the first component defaults to 0. -/
def cmpZero : List Int → Int
  | [] => 0
  | y :: ys => if 0 > y then 1 else if 0 < y then -1 else cmpZero ys

/-- The loop of `compare_versions` over the parsed part lists:
`for i in range(max(len1, len2))`, each side defaulting to 0 past its
end; the first unequal position returns 1 or -1, otherwise 0. -/
def compareVersionParts : List Int → List Int → Int
  | [], ys => cmpZero ys
  | x :: xs, ys =>
    if x > ys.headD 0 then 1
    else if x < ys.headD 0 then -1
    else compareVersionParts xs ys.tail

/-- `ProjectUpdater.compare_versions`; `none` when `int()` raises on a
non-numeric segment. -/
def compare_versions (version1 version2 : String) : Option Int :=
  match parseVersion version1, parseVersion version2 with
  | some v1, some v2 => some (compareVersionParts v1 v2)
  | _, _ => none

/-! ### The version descriptor and check_for_updates -/

/-- The parsed contents of `version.json`, with each field optional:
`none` models an absent key (so that the corresponding `KeyError` /
default is expressible).  A file that is not valid JSON at all is
modelled as `none : Option VersionDoc` at the use sites. -/
structure VersionDoc where
  version : Option String
  update_url : Option String
  critical_files : Option (List Path)
  deriving DecidableEq

/-- `version_info.get('critical_files', [])`. -/
def criticalOf (d : VersionDoc) : List Path :=
  d.critical_files.getD []

/-- `tag_name.lstrip('v')`: drop every leading `v`. -/
def lstripV (s : String) : String :=
  String.mk (s.data.dropWhile (fun c => c == vChar))

/-- Outcome of `check_for_updates`: either an exception escaped to the
caller, or the returned pair `(has_update, latest_release)`; the release
dictionary is represented by its `tag_name` (the empty dict by `none`). -/
inductive CheckOutcome where
  | raised : CheckOutcome
  | result : Bool → Option String → CheckOutcome
  deriving DecidableEq

/-- `ProjectUpdater.check_for_updates`.  `doc` is the loaded
`version.json` (`none` = `load_version_info` raised); `net` is the
outcome of the request/status-check/JSON-parse/`tag_name` lookup, which
all happen inside the `try` block (`none` = some step raised, `some tag`
= the remote tag string).  `version_info['version']` is read before the
`try` block, so its `KeyError` escapes; `version_info['update_url']` is
read inside it, so its `KeyError` is caught. -/
def check_for_updates (doc : Option VersionDoc) (net : Option String) : CheckOutcome :=
  match doc with
  | none => CheckOutcome.raised
  | some d =>
    match d.version with
    | none => CheckOutcome.raised
    | some currentVersion =>
      match d.update_url with
      | none => CheckOutcome.result false none
      | some _ =>
        match net with
        | none => CheckOutcome.result false none
        | some tag =>
          match compare_versions (lstripV tag) currentVersion with
          | none => CheckOutcome.result false none
          | some c =>
            if c > 0 then CheckOutcome.result true (some tag)
            else CheckOutcome.result false none

/-! ### backup_critical_files and the restore functions -/

/-- One iteration of the backup loop: if the critical file exists under
the project root, `shutil.copy2` it into the backup tree (a later copy
to the same path overwrites, hence the append). -/
def backupStep (fs : FS) (bk : BackupTree) (p : Path) : BackupTree :=
  match fs p with
  | some c => bk ++ [(p, c)]
  | none => bk

/-- `ProjectUpdater.backup_critical_files`: the backup directory is
first deleted and recreated empty, then every existing critical file is
copied in; missing paths are silently skipped.  Returns the resulting
backup tree. -/
def backup_critical_files (fs : FS) (critical : List Path) : BackupTree :=
  List.foldl (backupStep fs) [] critical

/-- The copy loop of `restore_critical_files`: for every file under the
backup directory, copy it back over the project root. -/
def restoreCopy (bk : BackupTree) (fs : FS) : FS :=
  List.foldl (fun acc pc => fsWrite acc pc.1 pc.2) fs bk

/-- `ProjectUpdater.restore_critical_files`: a no-op when the backup
directory does not exist. -/
def restore_critical_files (backup : Option BackupTree) (fs : FS) : FS :=
  match backup with
  | none => fs
  | some bk => restoreCopy bk fs

/-- `ProjectUpdater.restore_from_backup`: checks that the backup
directory exists, then runs `restore_critical_files`. -/
def restore_from_backup (backup : Option BackupTree) (fs : FS) : FS :=
  match backup with
  | none => fs
  | some bk => restore_critical_files (some bk) fs

/-! ### apply_update -/

/-- The merge loop of `apply_update` over the files of the chosen
top-level directory, with fault injection: `failAfter = some k` makes
the (k+1)-st `shutil.copy2` raise.  A file is skipped when its rendered
relative path is in the critical set, or when any of its segments starts
with a dot.  Returns the updated tree and whether an exception was
raised. -/
def mergeLoop (critical : List Path) (failAfter : Option Nat) :
    List (Path × Content) → FS → Nat → FS × Bool
  | [], fs, _ => (fs, false)
  | (q, c) :: rest, fs, copies =>
    if pathStr q ∈ List.map pathStr critical then
      mergeLoop critical failAfter rest fs copies
    else if q.any startsWithDot then
      mergeLoop critical failAfter rest fs copies
    else if failAfter = some copies then
      (fs, true)
    else
      mergeLoop critical failAfter rest (fsWrite fs q c) (copies + 1)

/-- Whether `apply_update` raises inside its `try` block: either the
extracted archive has no top-level directory (the explicit
`raise Exception`), or the injected fault fires during the merge loop. -/
def applyUpdateErrors (ext : List DirTree) (critical : List Path)
    (failAfter : Option Nat) (fs : FS) : Bool :=
  match ext with
  | [] => true
  | d :: _ => (mergeLoop critical failAfter d fs 0).2

/-- `ProjectUpdater.apply_update` after extraction.  `ext` is the list
of top-level directories of the extracted archive in `iterdir` order,
each given by its contained files; `backup` is the state of the
`.backup` directory.  Returns the boolean result, the final project
tree, and whether the `.update` staging directory still exists
(`shutil.rmtree(self.update_dir)` runs only on the success path; the
`except` branch restores from backup and returns `False` without
touching the staging directory). -/
def apply_update (ext : List DirTree) (critical : List Path)
    (backup : Option BackupTree) (failAfter : Option Nat) (fs : FS) :
    Bool × FS × Bool :=
  match ext with
  | [] => (false, restore_from_backup backup fs, true)
  | d :: _ =>
    if (mergeLoop critical failAfter d fs 0).2 then
      (false, restore_from_backup backup (mergeLoop critical failAfter d fs 0).1, true)
    else
      (true, restore_critical_files backup (mergeLoop critical failAfter d fs 0).1, false)

/-! ### run -/

/-- `ProjectUpdater.run`.  `confirm` is the user's `y` answer;
`downloadOk` is whether `download_update` returns (its `mkdir` of the
staging directory happens before the request, so a failed download still
leaves the staging directory behind).  Returns the exit code (`none` =
an exception escaped `run`), the final project tree, and whether the
`.update` staging directory exists on return. -/
def run (doc : Option VersionDoc) (net : Option String) (confirm : Bool)
    (downloadOk : Bool) (ext : List DirTree) (failAfter : Option Nat) (fs : FS) :
    Option Nat × FS × Bool :=
  match doc with
  | none => (none, fs, false)
  | some d =>
    match check_for_updates (some d) net with
    | CheckOutcome.raised => (none, fs, false)
    | CheckOutcome.result false _ => (some 0, fs, false)
    | CheckOutcome.result true _ =>
      if confirm = false then (some 0, fs, false)
      else if downloadOk = false then (some 1, fs, true)
      else
        if (apply_update ext (criticalOf d)
              (some (backup_critical_files fs (criticalOf d))) failAfter fs).1 then
          (some 0,
           (apply_update ext (criticalOf d)
              (some (backup_critical_files fs (criticalOf d))) failAfter fs).2.1,
           (apply_update ext (criticalOf d)
              (some (backup_critical_files fs (criticalOf d))) failAfter fs).2.2)
        else
          (some 1,
           (apply_update ext (criticalOf d)
              (some (backup_critical_files fs (criticalOf d))) failAfter fs).2.1,
           (apply_update ext (criticalOf d)
              (some (backup_critical_files fs (criticalOf d))) failAfter fs).2.2)

/-! ### Helper: last write wins in a backup tree -/

/-- The content the last copy into the backup directory left at path
`p`, if any: later entries of the copy list shadow earlier ones. -/
def lookupLast : BackupTree → Path → Option Content
  | [], _ => none
  | pc :: rest, p =>
    match lookupLast rest p with
    | some c => some c
    | none => if pc.1 = p then some pc.2 else none

/-! ### Concrete fixtures -/

def ver12 : String := "1.2"

def ver120 : String := "1.2.0"

def ver200 : String := "2.0.0"

def ver199 : String := "1.9.9"

def ver100 : String := "1.0.0"

def tag120 : String := "v1.2.0"

def urlA : String := "https://example.com/releases/latest"

def nameA : String := "config.json"

def nameB : String := "app.bin"

def nameC : String := "readme.txt"

def nameDot : String := ".git"

def contA : String := "alpha"

def contB : String := "beta"

def contC : String := "gamma"

def pA : Path := [nameA]

def pB : Path := [nameB]

def pC : Path := [nameC]

def pDot : Path := [nameDot, nameC]

/-- A live tree holding one critical file `config.json`. -/
def fs0 : FS := fun q => if q = pA then some contA else none

def critical0 : List Path := [pA]

/-- One top-level directory whose tree carries the critical file, a
hidden file and a plain file. -/
def d0 : DirTree := [(pA, contC), (pDot, contB), (pB, contB)]

def ext0 : List DirTree := [d0]

/-- An extracted tree with two top-level directories. -/
def ext2 : List DirTree := [[(pB, contB)], [(pB, contC)]]

def doc0 : VersionDoc := ⟨some ver100, some urlA, some critical0⟩

def docNoVer : VersionDoc := ⟨none, some urlA, none⟩

def docNoUrl : VersionDoc := ⟨some ver100, none, none⟩

/-! ### Lemmas about the merge loop -/

lemma mergeLoop_skip (critical : List Path) (failAfter : Option Nat) :
    ∀ (d : List (Path × Content)) (fs : FS) (copies : Nat) (p : Path),
      pathStr p ∈ List.map pathStr critical ∨ p.any startsWithDot = true →
      (mergeLoop critical failAfter d fs copies).1 p = fs p := by
  intro d
  induction d with
  | nil => intro fs copies p h; rfl
  | cons hd tl ih =>
    intro fs copies p h
    obtain ⟨q, c⟩ := hd
    by_cases h1 : pathStr q ∈ List.map pathStr critical
    · simpa [mergeLoop, h1] using ih fs copies p h
    · by_cases h2 : q.any startsWithDot = true
      · simpa [mergeLoop, h1, h2] using ih fs copies p h
      · by_cases h3 : failAfter = some copies
        · simp [mergeLoop, h1, h2, h3]
        · have hpq : p ≠ q := by
            rintro rfl
            rcases h with h | h
            · exact h1 h
            · exact h2 h
          have h4 := ih (fsWrite fs q c) (copies + 1) p h
          rw [show mergeLoop critical failAfter ((q, c) :: tl) fs copies
                = mergeLoop critical failAfter tl (fsWrite fs q c) (copies + 1) from by
              simp [mergeLoop, h1, h2, h3]]
          rw [h4]
          simp [fsWrite, hpq]

lemma mergeLoop_mem (critical : List Path) (failAfter : Option Nat)
    (d : List (Path × Content)) (fs : FS) (copies : Nat) (p : Path)
    (hp : p ∈ critical) :
    (mergeLoop critical failAfter d fs copies).1 p = fs p :=
  mergeLoop_skip critical failAfter d fs copies p
    (Or.inl (List.mem_map_of_mem pathStr hp))

lemma mergeLoop_frame (critical : List Path) (failAfter : Option Nat) :
    ∀ (d : List (Path × Content)) (fs : FS) (copies : Nat) (p : Path),
      (∀ c, (p, c) ∉ d) → (mergeLoop critical failAfter d fs copies).1 p = fs p := by
  intro d
  induction d with
  | nil => intro fs copies p _; rfl
  | cons hd tl ih =>
    intro fs copies p h
    obtain ⟨q, c⟩ := hd
    have hpq : p ≠ q := by
      rintro rfl
      exact h c (List.mem_cons_self _ _)
    have htl : ∀ c0, (p, c0) ∉ tl := fun c0 hc0 => h c0 (List.mem_cons_of_mem _ hc0)
    by_cases h1 : pathStr q ∈ List.map pathStr critical
    · simpa [mergeLoop, h1] using ih fs copies p htl
    · by_cases h2 : q.any startsWithDot = true
      · simpa [mergeLoop, h1, h2] using ih fs copies p htl
      · by_cases h3 : failAfter = some copies
        · simp [mergeLoop, h1, h2, h3]
        · rw [show mergeLoop critical failAfter ((q, c) :: tl) fs copies
                = mergeLoop critical failAfter tl (fsWrite fs q c) (copies + 1) from by
              simp [mergeLoop, h1, h2, h3]]
          rw [ih (fsWrite fs q c) (copies + 1) p htl]
          simp [fsWrite, hpq]

lemma mergeLoop_adds (critical : List Path) (failAfter : Option Nat) :
    ∀ (d : List (Path × Content)) (fs : FS) (copies : Nat) (p : Path),
      (fs p).isSome = true →
      ((mergeLoop critical failAfter d fs copies).1 p).isSome = true := by
  intro d
  induction d with
  | nil => intro fs copies p h; exact h
  | cons hd tl ih =>
    intro fs copies p h
    obtain ⟨q, c⟩ := hd
    by_cases h1 : pathStr q ∈ List.map pathStr critical
    · simpa [mergeLoop, h1] using ih fs copies p h
    · by_cases h2 : q.any startsWithDot = true
      · simpa [mergeLoop, h1, h2] using ih fs copies p h
      · by_cases h3 : failAfter = some copies
        · simpa [mergeLoop, h1, h2, h3] using h
        · rw [show mergeLoop critical failAfter ((q, c) :: tl) fs copies
                = mergeLoop critical failAfter tl (fsWrite fs q c) (copies + 1) from by
              simp [mergeLoop, h1, h2, h3]]
          apply ih
          by_cases hpq : p = q
          · simp [fsWrite, hpq]
          · simpa [fsWrite, hpq] using h

/-! ### Lemmas about backup and restore -/

lemma restoreCopy_lookup : ∀ (bk : BackupTree) (fs : FS) (p : Path),
    restoreCopy bk fs p =
      match lookupLast bk p with
      | some c => some c
      | none => fs p := by
  intro bk
  induction bk with
  | nil => intro fs p; rfl
  | cons pc rest ih =>
    intro fs p
    rw [show restoreCopy (pc :: rest) fs = restoreCopy rest (fsWrite fs pc.1 pc.2) from rfl]
    rw [ih]
    cases h : lookupLast rest p with
    | some c => simp [lookupLast, h]
    | none =>
      by_cases hp : pc.1 = p
      · simp [lookupLast, h, hp, fsWrite]
      · have hp2 : ¬(p = pc.1) := fun hx => hp hx.symm
        simp [lookupLast, h, hp, hp2, fsWrite]

lemma lookupLast_append_single :
    ∀ (bk : BackupTree) (q : Path) (c : Content) (p : Path),
      lookupLast (bk ++ [(q, c)]) p = if q = p then some c else lookupLast bk p := by
  intro bk q c p
  induction bk with
  | nil => simp [lookupLast]
  | cons pc rest ih =>
    rw [List.cons_append]
    by_cases hq : q = p
    · subst hq
      simp [lookupLast, ih]
    · simp [lookupLast, ih, hq]

lemma backup_lookup (fs : FS) (p : Path) :
    ∀ (critical : List Path) (acc : BackupTree),
      lookupLast (List.foldl (backupStep fs) acc critical) p =
        if p ∈ critical ∧ (fs p).isSome = true then fs p else lookupLast acc p := by
  intro critical
  induction critical with
  | nil => intro acc; simp
  | cons q rest ih =>
    intro acc
    rw [List.foldl_cons, ih]
    by_cases hr : p ∈ rest ∧ (fs p).isSome = true
    · rw [if_pos hr, if_pos ⟨List.mem_cons_of_mem q hr.1, hr.2⟩]
    · rw [if_neg hr]
      cases hq : fs q with
      | some c =>
        rw [show backupStep fs acc q = acc ++ [(q, c)] from by simp [backupStep, hq]]
        rw [lookupLast_append_single]
        by_cases hqp : q = p
        · subst hqp
          rw [if_pos rfl, if_pos ⟨List.mem_cons_self q rest, by simp [hq]⟩, hq]
        · rw [if_neg hqp, if_neg ?hall]
          case hall =>
            rintro ⟨hmem, hsome⟩
            rcases List.mem_cons.mp hmem with h | h
            · exact hqp h.symm
            · exact hr ⟨h, hsome⟩
      | none =>
        rw [show backupStep fs acc q = acc from by simp [backupStep, hq]]
        rw [if_neg ?hall2]
        case hall2 =>
          rintro ⟨hmem, hsome⟩
          rcases List.mem_cons.mp hmem with h | h
          · rw [h, hq] at hsome
            exact Bool.false_ne_true hsome
          · exact hr ⟨h, hsome⟩

lemma restore_after_backup (fs fsMid : FS) (critical : List Path) (p : Path) :
    restoreCopy (backup_critical_files fs critical) fsMid p =
      if p ∈ critical ∧ (fs p).isSome = true then fs p else fsMid p := by
  rw [restoreCopy_lookup, backup_critical_files, backup_lookup]
  by_cases h : p ∈ critical ∧ (fs p).isSome = true
  · rw [if_pos h, if_pos h]
    obtain ⟨c, hc⟩ := Option.isSome_iff_exists.mp h.2
    rw [hc]
  · rw [if_neg h, if_neg h]
    simp [lookupLast]

/-! ### Lemmas about compare_versions -/

lemma cmpZero_neg : ∀ b : List Int, cmpZero b = -(compareVersionParts b []) := by
  intro b
  induction b with
  | nil => rfl
  | cons y ys ih =>
    simp only [cmpZero, compareVersionParts, List.headD_nil, List.tail_nil]
    rcases lt_trichotomy y 0 with h | h | h
    · rw [if_pos (show (0:Int) > y from h), if_neg (show ¬ y > (0:Int) by omega),
        if_pos h]
      norm_num
    · subst h
      rw [if_neg (show ¬ (0:Int) > 0 by omega), if_neg (show ¬ (0:Int) < 0 by omega),
        if_neg (show ¬ (0:Int) > 0 by omega), if_neg (show ¬ (0:Int) < 0 by omega)]
      exact ih
    · rw [if_neg (show ¬ (0:Int) > y by omega), if_pos h,
        if_pos (show y > (0:Int) from h)]

lemma compareVersionParts_neg : ∀ a b : List Int,
    compareVersionParts a b = -(compareVersionParts b a) := by
  intro a
  induction a with
  | nil =>
    intro b
    rw [show compareVersionParts [] b = cmpZero b from rfl]
    exact cmpZero_neg b
  | cons x xs ih =>
    intro b
    cases b with
    | nil =>
      rw [show compareVersionParts ([] : List Int) (x :: xs) = cmpZero (x :: xs) from rfl,
        cmpZero_neg (x :: xs), neg_neg]
    | cons y ys =>
      simp only [compareVersionParts, List.headD_cons, List.tail_cons]
      rcases lt_trichotomy x y with h | h | h
      · rw [if_neg (show ¬ x > y by omega), if_pos h, if_pos (show y > x from h)]
      · subst h
        rw [if_neg (show ¬ x > x by omega), if_neg (show ¬ x < x by omega),
          if_neg (show ¬ x > x by omega), if_neg (show ¬ x < x by omega)]
        exact ih ys
      · rw [if_pos (show x > y from h), if_neg (show ¬ y > x by omega),
          if_pos (show y < x from h)]
        norm_num

lemma compareVersionParts_refl : ∀ a : List Int, compareVersionParts a a = 0 := by
  intro a
  induction a with
  | nil => rfl
  | cons x xs ih =>
    simp only [compareVersionParts, List.headD_cons, List.tail_cons]
    rw [if_neg (show ¬ x > x by omega), if_neg (show ¬ x < x by omega)]
    exact ih

/-- The staging directory survives `apply_update` exactly when
`apply_update` fails: `shutil.rmtree(self.update_dir)` runs only at the
end of the `try` block. -/
lemma apply_update_staging (ext : List DirTree) (critical : List Path)
    (backup : Option BackupTree) (failAfter : Option Nat) (fs : FS) :
    (apply_update ext critical backup failAfter fs).2.2
      = !(apply_update ext critical backup failAfter fs).1 := by
  cases ext with
  | nil => rfl
  | cons d rest =>
    by_cases h : (mergeLoop critical failAfter d fs 0).2 = true
    · simp [apply_update, h]
    · simp [apply_update, h]

/-! ### The claims -/

/-- C1: if any error is raised during `apply_update` after the backup
has been taken (the structural error of an empty extraction, or a copy
failure after some non-critical files were already merged), then the
restore from backup runs and, when the failed call returns, every file
listed in `critical_files` has its pre-transaction content (files absent
at backup time remain absent), and `apply_update` returns `false`. -/
theorem apply_update_rollback (ext : List DirTree) (critical : List Path)
    (failAfter : Option Nat) (fs : FS)
    (herr : applyUpdateErrors ext critical failAfter fs = true) :
    (apply_update ext critical (some (backup_critical_files fs critical)) failAfter fs).1
      = false ∧
    ∀ p ∈ critical,
      (apply_update ext critical (some (backup_critical_files fs critical)) failAfter fs).2.1 p
        = fs p := by
  cases ext with
  | nil =>
    refine ⟨rfl, ?_⟩
    intro p _
    rw [show (apply_update [] critical (some (backup_critical_files fs critical))
            failAfter fs).2.1
          = restoreCopy (backup_critical_files fs critical) fs from rfl]
    rw [restore_after_backup]
    by_cases h : p ∈ critical ∧ (fs p).isSome = true
    · rw [if_pos h]
    · rw [if_neg h]
  | cons d rest =>
    have hm : (mergeLoop critical failAfter d fs 0).2 = true := herr
    constructor
    · simp [apply_update, hm]
    · intro p hp
      rw [show (apply_update (d :: rest) critical (some (backup_critical_files fs critical))
              failAfter fs).2.1
            = restoreCopy (backup_critical_files fs critical)
                (mergeLoop critical failAfter d fs 0).1
            from by simp [apply_update, hm, restore_from_backup, restore_critical_files]]
      rw [restore_after_backup]
      by_cases h : p ∈ critical ∧ (fs p).isSome = true
      · rw [if_pos h]
      · rw [if_neg h]
        exact mergeLoop_mem critical failAfter d fs 0 p hp

theorem apply_update_rollback_witness :
    (apply_update ext0 critical0 (some (backup_critical_files fs0 critical0)) (some 0) fs0).1
      = false ∧
    (apply_update ext0 critical0 (some (backup_critical_files fs0 critical0)) (some 0) fs0).2.1 pA
      = fs0 pA :=
  ⟨(apply_update_rollback ext0 critical0 (some 0) fs0 (by decide)).1,
   (apply_update_rollback ext0 critical0 (some 0) fs0 (by decide)).2 pA (by decide)⟩

/-- C2: the merge loop of `apply_update` leaves every path that is a
normalized member of the critical-file list, and every path one of whose
segments starts with a dot, exactly as it was: nothing is copied there. -/
theorem merge_exclusion (d : List (Path × Content)) (critical : List Path)
    (failAfter : Option Nat) (fs : FS) (p : Path)
    (h : p ∈ critical ∨ p.any startsWithDot = true) :
    (mergeLoop critical failAfter d fs 0).1 p = fs p := by
  rcases h with h | h
  · exact mergeLoop_mem critical failAfter d fs 0 p h
  · exact mergeLoop_skip critical failAfter d fs 0 p (Or.inr h)

theorem merge_exclusion_witness :
    (mergeLoop critical0 none d0 fs0 0).1 pA = fs0 pA ∧
    (mergeLoop critical0 none d0 fs0 0).1 pDot = fs0 pDot :=
  ⟨merge_exclusion d0 critical0 none fs0 pA (Or.inl (by decide)),
   merge_exclusion d0 critical0 none fs0 pDot (Or.inr (by decide))⟩

/-- C3 counterexample: an extracted tree with two top-level directories
is not rejected: `apply_update` returns `true` (no StructuralError) and
the project tree is modified, refuting the claim that two or more
top-level directories abort the merge and leave the tree unchanged.  The
code only raises when the list of top-level directories is empty
(`if not subdirs`), and otherwise merges from `subdirs[0]`. -/
theorem apply_update_two_dirs_cex :
    (apply_update ext2 critical0 (some (backup_critical_files fs0 critical0)) none fs0).1
      = true ∧
    (apply_update ext2 critical0 (some (backup_critical_files fs0 critical0)) none fs0).2.1 pB
      = some contB ∧
    fs0 pB = none :=
  ⟨by decide, by decide, by decide⟩

/-- C3 (amended): an archive whose extraction yields zero top-level
directories makes `apply_update` fail and, with the backup freshly taken
from the current tree, leaves the project tree pointwise unchanged; an
archive with two or more top-level directories is not rejected:
`apply_update` behaves exactly as if the first directory were the only
one. -/
theorem apply_update_structural_amended :
    (∀ (critical : List Path) (failAfter : Option Nat) (fs : FS),
       (apply_update [] critical (some (backup_critical_files fs critical)) failAfter fs).1
         = false ∧
       ∀ p, (apply_update [] critical (some (backup_critical_files fs critical))
               failAfter fs).2.1 p = fs p) ∧
    (∀ (d : DirTree) (rest : List DirTree) (critical : List Path)
       (backup : Option BackupTree) (failAfter : Option Nat) (fs : FS),
       apply_update (d :: rest) critical backup failAfter fs
         = apply_update [d] critical backup failAfter fs) := by
  constructor
  · intro critical failAfter fs
    refine ⟨rfl, ?_⟩
    intro p
    rw [show (apply_update [] critical (some (backup_critical_files fs critical))
            failAfter fs).2.1
          = restoreCopy (backup_critical_files fs critical) fs from rfl]
    rw [restore_after_backup]
    by_cases h : p ∈ critical ∧ (fs p).isSome = true
    · rw [if_pos h]
    · rw [if_neg h]
  · intro d rest critical backup failAfter fs
    rfl

/-- C4: on version strings with numeric dot-separated components the
comparison is antisymmetric and reflexive, compare("1.2", "1.2.0") = 0,
and compare("2.0.0", "1.9.9") is strictly positive. -/
theorem compare_versions_algebra :
    (∀ a b c, compare_versions a b = some c → compare_versions b a = some (-c)) ∧
    (∀ a v, parseVersion a = some v → compare_versions a a = some 0) ∧
    compare_versions ver12 ver120 = some 0 ∧
    (∃ c, compare_versions ver200 ver199 = some c ∧ 0 < c) := by
  refine ⟨?_, ?_, by decide, ⟨1, by decide, by norm_num⟩⟩
  · intro a b c h
    cases ha : parseVersion a with
    | none => rw [compare_versions, ha] at h; simp at h
    | some va =>
      cases hb : parseVersion b with
      | none => rw [compare_versions, ha, hb] at h; simp at h
      | some vb =>
        rw [compare_versions, ha, hb] at h
        rw [compare_versions, ha, hb]
        simp only [Option.some.injEq] at h ⊢
        rw [compareVersionParts_neg vb va, h]
  · intro a v h
    rw [compare_versions, h]
    simp only [Option.some.injEq]
    exact compareVersionParts_refl v

theorem compare_versions_algebra_witness :
    compare_versions ver120 ver12 = some (-0) ∧ compare_versions ver12 ver12 = some 0 :=
  ⟨compare_versions_algebra.1 ver12 ver120 0 (by decide),
   compare_versions_algebra.2.1 ver12 [1, 2] (by decide)⟩

/-- C5: restoring immediately after `backup_critical_files` reproduces
the pre-snapshot tree byte for byte, and a listed critical file that was
absent at snapshot time is silently skipped (it has no entry in the
backup tree), hence remains absent after restore. -/
theorem backup_restore_roundtrip (fs : FS) (critical : List Path) (p : Path) :
    restore_critical_files (some (backup_critical_files fs critical)) fs p = fs p ∧
    (fs p = none → lookupLast (backup_critical_files fs critical) p = none) := by
  constructor
  · rw [show restore_critical_files (some (backup_critical_files fs critical)) fs
        = restoreCopy (backup_critical_files fs critical) fs from rfl]
    rw [restore_after_backup]
    by_cases h : p ∈ critical ∧ (fs p).isSome = true
    · rw [if_pos h]
    · rw [if_neg h]
  · intro hnone
    rw [backup_critical_files, backup_lookup]
    rw [if_neg ?hng]
    case hng =>
      rintro ⟨-, hs⟩
      rw [hnone] at hs
      exact Bool.false_ne_true hs
    rfl

theorem backup_restore_roundtrip_witness :
    restore_critical_files (some (backup_critical_files fs0 critical0)) fs0 pB = fs0 pB ∧
    lookupLast (backup_critical_files fs0 critical0) pB = none :=
  ⟨(backup_restore_roundtrip fs0 critical0 pB).1,
   (backup_restore_roundtrip fs0 critical0 pB).2 (by decide)⟩

/-- C6: with a current-version field present, `check_for_updates` never
lets a network, HTTP-status or parse failure escape: any such failure
(modelled by `net = none`, or an unparseable version pair) yields
`(False, {})`; on success it reports an update exactly when the remote
version compares strictly greater than the current one. -/
theorem check_soft_fail (d : VersionDoc) (cur : String) (hv : d.version = some cur) :
    check_for_updates (some d) none = CheckOutcome.result false none ∧
    (∀ tag u, d.update_url = some u → compare_versions (lstripV tag) cur = none →
      check_for_updates (some d) (some tag) = CheckOutcome.result false none) ∧
    (∀ tag u c, d.update_url = some u → compare_versions (lstripV tag) cur = some c →
      check_for_updates (some d) (some tag)
        = if c > 0 then CheckOutcome.result true (some tag)
          else CheckOutcome.result false none) := by
  refine ⟨?_, ?_, ?_⟩
  · cases hu : d.update_url with
    | none => simp [check_for_updates, hv, hu]
    | some u => simp [check_for_updates, hv, hu]
  · intro tag u hu hcmp
    simp [check_for_updates, hv, hu, hcmp]
  · intro tag u c hu hcmp
    simp [check_for_updates, hv, hu, hcmp]

theorem check_soft_fail_witness :
    check_for_updates (some doc0) none = CheckOutcome.result false none ∧
    check_for_updates (some doc0) (some tag120)
      = CheckOutcome.result true (some tag120) := by
  refine ⟨(check_soft_fail doc0 ver100 (by decide)).1, ?_⟩
  have h := (check_soft_fail doc0 ver100 (by decide)).2.2 tag120 urlA 1 (by decide) (by decide)
  simpa using h

/-- C7 counterexample: a run that reached the Downloading phase and
failed there terminates with exit code 1 while the staging directory
still exists, refuting the claim that the staging area is deleted on
every failure path.  The code removes `.update` only on the success path
of `apply_update`. -/
theorem run_staging_cex :
    (run (some doc0) (some tag120) true false ext0 none fs0).1 = some 1 ∧
    (run (some doc0) (some tag120) true false ext0 none fs0).2.2 = true :=
  ⟨by decide, by decide⟩

/-- C7 (amended): on a confirmed run with an update available, the
staging area is deleted before the transaction returns only on the
success path; after a download failure or an `apply_update` failure the
transaction returns with the staging directory still in place. -/
theorem run_staging_amended (d : VersionDoc) (net : Option String) (rel : Option String)
    (ext : List DirTree) (failAfter : Option Nat) (fs : FS)
    (hc : check_for_updates (some d) net = CheckOutcome.result true rel) :
    ((run (some d) net true false ext failAfter fs).1 = some 1 ∧
     (run (some d) net true false ext failAfter fs).2.2 = true) ∧
    ((apply_update ext (criticalOf d) (some (backup_critical_files fs (criticalOf d)))
        failAfter fs).1 = true →
      (run (some d) net true true ext failAfter fs).1 = some 0 ∧
      (run (some d) net true true ext failAfter fs).2.2 = false) ∧
    ((apply_update ext (criticalOf d) (some (backup_critical_files fs (criticalOf d)))
        failAfter fs).1 = false →
      (run (some d) net true true ext failAfter fs).1 = some 1 ∧
      (run (some d) net true true ext failAfter fs).2.2 = true) := by
  refine ⟨?_, ?_, ?_⟩
  · constructor <;> simp [run, hc]
  · intro hap
    constructor <;> simp [run, hc, hap, apply_update_staging]
  · intro hap
    constructor <;> simp [run, hc, hap, apply_update_staging]

theorem run_staging_amended_witness :
    ((run (some doc0) (some tag120) true false ext2 none fs0).1 = some 1 ∧
     (run (some doc0) (some tag120) true false ext2 none fs0).2.2 = true) ∧
    ((run (some doc0) (some tag120) true true ext2 none fs0).1 = some 0 ∧
     (run (some doc0) (some tag120) true true ext2 none fs0).2.2 = false) :=
  ⟨(run_staging_amended doc0 (some tag120) (some tag120) ext2 none fs0 (by decide)).1,
   (run_staging_amended doc0 (some tag120) (some tag120) ext2 none fs0 (by decide)).2.1
     (by decide)⟩

/-- C8: the merge loop only adds or overwrites: a live-tree path that is
not among the archive files keeps its exact content, and a file that
existed before the merge still exists afterwards. -/
theorem merge_additive (d : List (Path × Content)) (critical : List Path)
    (failAfter : Option Nat) (fs : FS) (p : Path) :
    ((∀ c, (p, c) ∉ d) → (mergeLoop critical failAfter d fs 0).1 p = fs p) ∧
    (∀ c, fs p = some c → (mergeLoop critical failAfter d fs 0).1 p ≠ none) := by
  constructor
  · exact fun h => mergeLoop_frame critical failAfter d fs 0 p h
  · intro c hc hnone
    have hs := mergeLoop_adds critical failAfter d fs 0 p (by rw [hc]; rfl)
    rw [hnone] at hs
    exact Bool.false_ne_true hs

theorem merge_additive_witness :
    (mergeLoop critical0 none d0 fs0 0).1 pC = fs0 pC ∧
    (mergeLoop critical0 none d0 fs0 0).1 pA ≠ none := by
  constructor
  · apply (merge_additive d0 critical0 none fs0 pC).1
    intro c hc
    simp only [d0, List.mem_cons, List.not_mem_nil, or_false, Prod.mk.injEq] at hc
    rcases hc with ⟨h, -⟩ | ⟨h, -⟩ | ⟨h, -⟩ <;> revert h <;> decide
  · exact (merge_additive d0 critical0 none fs0 pA).2 contA (by decide)

/-- C9 counterexample: a descriptor with a current-version field but no
update-source locator does not surface a fatal configuration error: the
`KeyError` on `update_url` is raised inside the `try` block of
`check_for_updates`, caught by its blanket handler, and masked as a soft
"no update available". -/
theorem descriptor_missing_url_cex :
    check_for_updates (some docNoUrl) (some tag120) = CheckOutcome.result false none ∧
    check_for_updates (some docNoUrl) (some tag120) ≠ CheckOutcome.raised :=
  ⟨by decide, by decide⟩

/-- C9 (amended): a version file that is not valid structured data, or
that lacks the current-version field, raises an exception that escapes
`check_for_updates` to the caller; but a missing update-source locator
is caught by the blanket handler and masked as a soft "no update
available", and a missing critical-file list silently defaults to the
empty list. -/
theorem descriptor_errors_amended :
    (∀ net, check_for_updates none net = CheckOutcome.raised) ∧
    (∀ (d : VersionDoc) (net : Option String), d.version = none →
       check_for_updates (some d) net = CheckOutcome.raised) ∧
    (∀ (d : VersionDoc) (net : Option String) (cur : String),
       d.version = some cur → d.update_url = none →
       check_for_updates (some d) net = CheckOutcome.result false none) ∧
    (∀ d : VersionDoc, d.critical_files = none → criticalOf d = []) := by
  refine ⟨fun net => rfl, ?_, ?_, ?_⟩
  · intro d net hv
    simp [check_for_updates, hv]
  · intro d net cur hv hu
    simp [check_for_updates, hv, hu]
  · intro d hcf
    simp [criticalOf, hcf]

theorem descriptor_errors_amended_witness :
    check_for_updates none (some tag120) = CheckOutcome.raised ∧
    check_for_updates (some docNoVer) (some tag120) = CheckOutcome.raised ∧
    check_for_updates (some docNoUrl) (some tag120) = CheckOutcome.result false none ∧
    criticalOf docNoUrl = [] :=
  ⟨descriptor_errors_amended.1 (some tag120),
   descriptor_errors_amended.2.1 docNoVer (some tag120) (by decide),
   descriptor_errors_amended.2.2.1 docNoUrl (some tag120) ver100 (by decide) (by decide),
   descriptor_errors_amended.2.2.2 docNoUrl (by decide)⟩

/-- C10: when the backup directory does not exist, both
`restore_critical_files` and `restore_from_backup` return without
modifying any file: restoring before any snapshot exists is a safe
no-op. -/
theorem restore_missing_backup (fs : FS) :
    restore_critical_files none fs = fs ∧ restore_from_backup none fs = fs :=
  ⟨rfl, rfl⟩

end ProjectUpdater
